import Mathlib

/-!
Shallow embedding of the grid-widget subsystem of the C-Standards 2D game
framework (`src/src/grid.c`), together with the interaction state it consumes
(mouse position and per-button pressed flags, `src/src/input.c`).

Modelling conventions:
* C pointers that may be `NULL` become `Option`; `struct grid_t *` is
  `Option grid_t`, with `none` standing for a null grid.
* The `float` position fields (`x`, `y`, `sx`, `sy`) only ever hold values
  produced from integral inputs by integral additions in the code under
  scrutiny, so they are modelled as `Int` (float arithmetic is exact there);
  the C `(int)` casts on them are then the identity.
* `int32_t`/`uint16_t` quantities become `Int`, `uint32_t` counts become `Nat`.
* External collaborators (SDL, the drawing layer, the texture loader, the
  vector and animation subsystems) are modelled by their observable effect:
  draw primitives append a `DrawCall` to an output trace, `Stds_LoadTexture`
  produces a handle recording the path and the size reported by a texture
  environment `env : String → Int × Int`, and the global mouse state is
  threaded explicitly.
-/

structure SDL_Color where
  r : Nat
  g : Nat
  b : Nat
  a : Nat
deriving DecidableEq, Repr

structure SDL_Rect where
  x : Int
  y : Int
  w : Int
  h : Int
deriving DecidableEq, Repr

/-- `struct grid_pair_t`: result of hover/click resolution.  `c`/`r` are the
matched column/row (−1/−1 sentinel when nothing matched), `x`/`y` the screen
position of the matched cell.  In C the struct starts out as uninitialized
stack memory; the embedding threads an explicit initial value `p0` instead. -/
structure grid_pair_t where
  c : Int
  r : Int
  x : Int
  y : Int
deriving DecidableEq, Repr

/-- A loaded texture handle: the path it was loaded from and the size that
`SDL_QueryTexture` reports for it. -/
structure Texture where
  path : String
  w : Int
  h : Int
deriving DecidableEq, Repr

/-- `struct animation_t`, restricted to the fields `grid.c` touches, plus an
abstract playback counter `tick` that `Stds_AnimationUpdate` advances. -/
structure animation_t where
  pos_x : Int
  pos_y : Int
  dest_width : Int
  dest_height : Int
  flip : Int
  angle : Int
  camera : Bool
  tick : Nat
deriving DecidableEq, Repr

/-- `struct grid_t` (fields as used by `grid.c`).  `textures` is `none` while
the C array pointer is `NULL`; once allocated it is a list of slots, a slot
being `none` while still uninitialized.  `animation` is the animation vector
(`none` for a null vector pointer). -/
structure grid_t where
  x : Int
  y : Int
  sx : Int
  sy : Int
  sw : Int
  sh : Int
  cols : Nat
  rows : Nat
  lineColor : SDL_Color
  fillColor : SDL_Color
  textures : Option (List (Option Texture))
  textureBuffer : Int
  spriteSheet : Option Texture
  clip : SDL_Rect
  spriteSheetCols : Nat
  spriteSheetRows : Nat
  animation : Option (List animation_t)
  animationBuffer : Int
  isCameraOn : Bool
deriving DecidableEq, Repr

/-- The global mouse state consumed by the grid (`app.mouse`): pointer
position and the per-button pressed flags, the latter modelled as the set of
currently pressed button codes. -/
structure mouse_t where
  x : Int
  y : Int
  buttons : List Int
deriving DecidableEq, Repr

/-- `app.mouse.button[code]` read as a boolean. -/
def pressed (m : mouse_t) (code : Int) : Bool :=
  decide (code ∈ m.buttons)

/-- `app.mouse.button[code] = 0`: clear one button's pressed flag, leaving
every other button unchanged. -/
def clearButton (m : mouse_t) (code : Int) : mouse_t :=
  { m with buttons := m.buttons.filter (fun b => !(b == code)) }

/-- One call into the external drawing layer, recorded in an output trace. -/
inductive DrawCall where
  | line (x0 y0 x1 y1 : Int) (color : SDL_Color)
  | rect (x y w h : Int) (color : SDL_Color) (filled : Bool) (alpha : Int)
  | blit (tex : Option Texture) (clip : Option SDL_Rect) (x y w h : Int)
      (angle : Int) (flip : Int) (camera : Bool)
  | animDraw (a : animation_t)
deriving DecidableEq, Repr

/-- `Stds_LoadTexture`, with the loader's size behaviour supplied by `env`. -/
def Stds_LoadTexture (env : String → Int × Int) (filePath : String) : Texture :=
  { path := filePath, w := (env filePath).1, h := (env filePath).2 }

/-- `Stds_AssertGrid`: `!(grid == NULL)`. -/
def Stds_AssertGrid (og : Option grid_t) : Bool :=
  !(decide (og = none))

/-- Modelled from the spec: `Stds_IsMouseOverRect` is defined outside `src/`
(only its callers are in `src/src/grid.c`); per the spec it tests whether the
screen rect "contains the pointer position", modelled as closed rectangle
containment.  (Both claims that use it only ever apply it to points strictly
inside a rect or outside all rects, where every containment convention
agrees.) -/
def Stds_IsMouseOverRect (mx my : Int) (rect : SDL_Rect) : Bool :=
  decide (rect.x ≤ mx ∧ mx ≤ rect.x + rect.w ∧
          rect.y ≤ my ∧ my ≤ rect.y + rect.h)

/-- `Stds_CreateGrid` (successful-allocation branch). -/
def Stds_CreateGrid (x y : Int) (squareWidth squareHeight : Int)
    (cols rows : Nat) (lineColor fillColor : SDL_Color) : grid_t :=
  { x := x, y := y, sx := x, sy := y,
    sw := squareWidth, sh := squareHeight,
    cols := cols, rows := rows,
    lineColor := lineColor, fillColor := fillColor,
    textures := none, textureBuffer := 0,
    spriteSheet := none, clip := ⟨0, 0, 0, 0⟩,
    spriteSheetCols := 0, spriteSheetRows := 0,
    animation := some [], animationBuffer := -1,
    isCameraOn := false }

/-- First loop of `Stds_DrawLineGrid`: draw one horizontal line per row,
advancing `grid->y` by `grid->sh` each iteration. -/
def drawHorizLines (g : grid_t) : Nat → grid_t × List DrawCall
  | 0 => (g, [])
  | n + 1 =>
    let call := DrawCall.line g.x g.y (g.x + g.sw * (g.cols : Int)) g.y g.lineColor
    let rest := drawHorizLines { g with y := g.y + g.sh } n
    (rest.1, call :: rest.2)

/-- Second loop of `Stds_DrawLineGrid`: draw one vertical line per column,
advancing `grid->x` by `grid->sw` each iteration. -/
def drawVertLines (g : grid_t) : Nat → grid_t × List DrawCall
  | 0 => (g, [])
  | n + 1 =>
    let call := DrawCall.line g.x g.y g.x (g.y + g.sh * (g.rows : Int)) g.lineColor
    let rest := drawVertLines { g with x := g.x + g.sw } n
    (rest.1, call :: rest.2)

/-- `Stds_DrawLineGrid`: reset the cursor to the start position, draw the
row lines, reset `y`, draw the column lines, reset `x`, then draw the
closing bottom and right edges. -/
def Stds_DrawLineGrid (og : Option grid_t) : Option grid_t × List DrawCall :=
  match og with
  | none => (none, [])
  | some g =>
    let g1 : grid_t := { g with x := g.sx, y := g.sy }
    match drawHorizLines g1 g1.rows with
    | (g2, out1) =>
      let g3 : grid_t := { g2 with y := g2.sy }
      match drawVertLines g3 g3.cols with
      | (g4, out2) =>
        let g5 : grid_t := { g4 with x := g4.sx }
        (some g5,
          out1 ++ out2 ++
          [DrawCall.line g5.x (g5.y + g5.sh * (g5.rows : Int))
             (g5.x + g5.sw * (g5.cols : Int)) (g5.y + g5.sh * (g5.rows : Int)) g5.lineColor,
           DrawCall.line (g5.x + g5.sw * (g5.cols : Int)) g5.y
             (g5.x + g5.sw * (g5.cols : Int)) (g5.y + g5.sh * (g5.rows : Int)) g5.lineColor])

/-- Inner (column) loop of `Stds_FillWholeGrid`: one filled rect per column,
advancing `fillRect.x` by `grid->sw`. -/
def fillCells (color : SDL_Color) (sw : Int) (x y w h : Int) : Nat → List DrawCall
  | 0 => []
  | n + 1 => DrawCall.rect x y w h color true 0 :: fillCells color sw (x + sw) y w h n

/-- Outer (row) loop of `Stds_FillWholeGrid`: after each row, `fillRect.y`
advances by `grid->sh` and `fillRect.x` resets to `grid->sx`. -/
def fillRows (color : SDL_Color) (sw sh sx : Int) (x y w h : Int) (cols : Nat) :
    Nat → List DrawCall
  | 0 => []
  | n + 1 => fillCells color sw x y w h cols ++ fillRows color sw sh sx sx (y + sh) w h cols n

/-- `Stds_FillWholeGrid`: reset the cursor to the start position, then fill
every cell row by row. -/
def Stds_FillWholeGrid (og : Option grid_t) : Option grid_t × List DrawCall :=
  match og with
  | none => (none, [])
  | some g =>
    let g1 : grid_t := { g with x := g.sx, y := g.sy }
    (some g1, fillRows g1.fillColor g1.sw g1.sh g1.sx g1.x g1.y g1.sw g1.sh g1.cols g1.rows)

/-- Inner (column) loop of `Stds_OnGridHover`: set `p.c`/`p.x`, test the
pointer against the current rect, return on the first match, otherwise
advance `hoverRect.x` by `grid->sw`.  Returns the found pair (if any), the
rect as left by the loop, and the pair as left by the loop. -/
def hoverScanCols (mx my sw : Int) :
    Nat → Nat → SDL_Rect → grid_pair_t → Option grid_pair_t × SDL_Rect × grid_pair_t
  | 0, _, rect, p => (none, rect, p)
  | n + 1, cIdx, rect, p =>
    let p1 : grid_pair_t := { p with c := (cIdx : Int), x := rect.x }
    if Stds_IsMouseOverRect mx my rect then (some p1, rect, p1)
    else hoverScanCols mx my sw n (cIdx + 1) { rect with x := rect.x + sw } p1

/-- Outer (row) loop of `Stds_OnGridHover`: set `p.r`/`p.y`, scan the row's
columns, and between rows advance `hoverRect.y` by `grid->sh` and reset
`hoverRect.x` to `grid->sx`. -/
def hoverScanRows (mx my sw sh sx : Int) (cols : Nat) :
    Nat → Nat → SDL_Rect → grid_pair_t → Option grid_pair_t × grid_pair_t
  | 0, _, _, p => (none, p)
  | n + 1, rIdx, rect, p =>
    let p1 : grid_pair_t := { p with r := (rIdx : Int), y := rect.y }
    match hoverScanCols mx my sw cols 0 rect p1 with
    | (some hit, _, _) => (some hit, hit)
    | (none, rect1, p2) =>
      hoverScanRows mx my sw sh sx cols n (rIdx + 1) { rect1 with y := rect1.y + sh, x := sx } p2

/-- `Stds_OnGridHover`: reset the cursor to the start position, scan the
cells row-major for the pointer, and fall back to the −1/−1 sentinel. -/
def Stds_OnGridHover (m : mouse_t) (og : Option grid_t) (p0 : grid_pair_t) :
    Option grid_t × grid_pair_t :=
  match og with
  | none => (none, { p0 with c := -1, r := -1 })
  | some g =>
    let g1 : grid_t := { g with x := g.sx, y := g.sy }
    let rect : SDL_Rect := { x := g1.x, y := g1.y, w := g1.sw, h := g1.sh }
    match hoverScanRows m.x m.y g1.sw g1.sh g1.sx g1.cols g1.rows 0 rect p0 with
    | (some hit, _) => (some g1, hit)
    | (none, pLast) => (some g1, { pLast with c := -1, r := -1 })

/-- Inner (column) loop of `Stds_OnGridClicked`: like the hover scan, but the
match additionally requires `app.mouse.button[mouseCode]`, and on a match
that flag is cleared before returning. -/
def clickScanCols (mo : mouse_t) (code : Int) (sw : Int) :
    Nat → Nat → SDL_Rect → grid_pair_t →
      Option grid_pair_t × mouse_t × SDL_Rect × grid_pair_t
  | 0, _, rect, p => (none, mo, rect, p)
  | n + 1, cIdx, rect, p =>
    let p1 : grid_pair_t := { p with c := (cIdx : Int), x := rect.x }
    if Stds_IsMouseOverRect mo.x mo.y rect && pressed mo code then
      (some p1, clearButton mo code, rect, p1)
    else clickScanCols mo code sw n (cIdx + 1) { rect with x := rect.x + sw } p1

/-- Outer (row) loop of `Stds_OnGridClicked`. -/
def clickScanRows (mo : mouse_t) (code : Int) (sw sh sx : Int) (cols : Nat) :
    Nat → Nat → SDL_Rect → grid_pair_t → Option grid_pair_t × mouse_t × grid_pair_t
  | 0, _, _, p => (none, mo, p)
  | n + 1, rIdx, rect, p =>
    let p1 : grid_pair_t := { p with r := (rIdx : Int), y := rect.y }
    match clickScanCols mo code sw cols 0 rect p1 with
    | (some hit, mo1, _, _) => (some hit, mo1, hit)
    | (none, mo1, rect1, p2) =>
      clickScanRows mo1 code sw sh sx cols n (rIdx + 1) { rect1 with y := rect1.y + sh, x := sx } p2

/-- `Stds_OnGridClicked`: row-major scan; a cell matches when the pointer is
over it and `button[mouseCode]` is pressed; the press is consumed on the
match.  Returns the grid, the (possibly consumed) mouse state, and the pair. -/
def Stds_OnGridClicked (m : mouse_t) (code : Int) (og : Option grid_t) (p0 : grid_pair_t) :
    Option grid_t × mouse_t × grid_pair_t :=
  match og with
  | none => (none, m, { p0 with c := -1, r := -1 })
  | some g =>
    let g1 : grid_t := { g with x := g.sx, y := g.sy }
    let rect : SDL_Rect := { x := g1.x, y := g1.y, w := g1.sw, h := g1.sh }
    match clickScanRows m code g1.sw g1.sh g1.sx g1.cols g1.rows 0 rect p0 with
    | (some hit, m1, _) => (some g1, m1, hit)
    | (none, m1, pLast) => (some g1, m1, { pLast with c := -1, r := -1 })

/-- `Stds_InitializeGridTextures`.  The C function keeps a `static bool
onceCall` latch shared by the whole process; the embedding threads that
hidden global explicitly as the first argument and first result. -/
def Stds_InitializeGridTextures (onceCall : Bool) (og : Option grid_t) (textureBuffer : Int) :
    Bool × Option grid_t :=
  match og with
  | none => (onceCall, none)
  | some g =>
    if !onceCall then
      (true, some { g with
        textures := some (List.replicate textureBuffer.toNat none),
        textureBuffer := textureBuffer })
    else (onceCall, some g)

/-- `Stds_AddGridTexture`: the next-slot index is a local recomputed from −1
on every call; when `textureBuffer > 0` the load is stored at slot 0 and 0 is
returned, otherwise −1. -/
def Stds_AddGridTexture (env : String → Int × Int) (og : Option grid_t) (filePath : String) :
    Option grid_t × Int :=
  match og with
  | none => (none, -1)
  | some g =>
    let currentTextureNum : Int := -1
    if currentTextureNum < g.textureBuffer - 1 then
      let currentTextureNum := currentTextureNum + 1
      (some { g with textures :=
          g.textures.map (fun arr =>
            arr.set currentTextureNum.toNat (some (Stds_LoadTexture env filePath))) },
        currentTextureNum)
    else (some g, -1)

/-- `Stds_PutGridTexture`: draw `textures[index]` at the cell, guarded by
`index < textureBuffer && index > -1` (silent no-op outside the range). -/
def Stds_PutGridTexture (og : Option grid_t) (col row : Nat) (index : Int)
    (flip angle : Int) : Option grid_t × List DrawCall :=
  match og with
  | none => (none, [])
  | some g =>
    if index < g.textureBuffer ∧ -1 < index then
      (some g, [DrawCall.blit ((g.textures.getD []).getD index.toNat none) none
        (g.x + (col : Int) * g.sw) (g.y + (row : Int) * g.sh) g.sw g.sh angle flip g.isCameraOn])
    else (some g, [])

/-- `Stds_AddSpriteSheetToGrid`.  Note the guard in the source: `bool
once_call = false;` is a fresh local on every call, so `!once_call` always
holds and the body runs unconditionally. -/
def Stds_AddSpriteSheetToGrid (env : String → Int × Int) (og : Option grid_t)
    (filePath : String) (cols rows : Nat) : Option grid_t :=
  match og with
  | none => none
  | some g =>
    let once_call := false
    if !once_call then
      let sheet := Stds_LoadTexture env filePath
      some { g with
        spriteSheet := some sheet,
        clip := { g.clip with w := sheet.w / (cols : Int), h := sheet.h / (rows : Int) },
        spriteSheetCols := cols,
        spriteSheetRows := rows }
    else some g

/-- `Stds_SelectSpriteForGrid`: set the clip origin for the selected sheet
tile; silently ignored when the tile is outside the sheet's declared range. -/
def Stds_SelectSpriteForGrid (og : Option grid_t) (sheetCol sheetRow : Nat) :
    Option grid_t :=
  match og with
  | none => none
  | some g =>
    if sheetCol < g.spriteSheetCols ∧ sheetRow < g.spriteSheetRows then
      some { g with clip := { g.clip with
        x := (sheetCol : Int) * g.clip.w,
        y := (sheetRow : Int) * g.clip.h } }
    else some g

/-- `Stds_DrawSelectedSpriteOnGrid`: draw the sheet's current clip at the
cell, guarded by `gridCol < cols && gridRow < rows`. -/
def Stds_DrawSelectedSpriteOnGrid (og : Option grid_t) (gridCol gridRow : Nat)
    (flip angle : Int) : Option grid_t × List DrawCall :=
  match og with
  | none => (none, [])
  | some g =>
    if gridCol < g.cols ∧ gridRow < g.rows then
      (some g, [DrawCall.blit g.spriteSheet (some g.clip)
        (g.x + (gridCol : Int) * g.sw) (g.y + (gridRow : Int) * g.sh)
        g.sw g.sh angle flip g.isCameraOn])
    else (some g, [])

/-- `Stds_AddAnimationToGrid`: null animation is rejected with −1 before the
grid is even looked at; otherwise the handle is appended and the incremented
`animationBuffer` returned. -/
def Stds_AddAnimationToGrid (og : Option grid_t) (animate : Option animation_t) :
    Option grid_t × Int :=
  match animate with
  | none => (og, -1)
  | some a =>
    match og with
    | none => (none, -1)
    | some g =>
      (some { g with
          animationBuffer := g.animationBuffer + 1,
          animation := g.animation.map (fun l => l ++ [a]) },
        g.animationBuffer + 1)

/-- Outcome of `Stds_RenderAnimationToGrid`: either a normal return (with the
updated grid and the emitted draw trace), or an unguarded fetch/dereference
past the end of the animation vector — the source checks the grid pointer,
the vector pointer and the cell coordinates, but never `index` against the
vector's size. -/
inductive RenderOutcome where
  | ok (og : Option grid_t) (calls : List DrawCall)
  | unguardedAccess
deriving DecidableEq, Repr

/-- `Stds_RenderAnimationToGrid`: reposition the animation at `index` to the
cell, copy flip/angle/camera from the call and grid, draw it, then advance
its playback state (draw-then-advance order). -/
def Stds_RenderAnimationToGrid (og : Option grid_t) (col row : Nat) (index : Int)
    (flip angle : Int) : RenderOutcome :=
  match og with
  | none => .ok none []
  | some g =>
    match g.animation with
    | none => .ok (some g) []
    | some anims =>
      if col < g.cols ∧ row < g.rows then
        if h : 0 ≤ index ∧ index.toNat < anims.length then
          let a := anims.get ⟨index.toNat, h.2⟩
          let a1 : animation_t := { a with
            pos_x := g.x + (col : Int) * g.sw,
            pos_y := g.y + (row : Int) * g.sh,
            dest_width := g.sw,
            dest_height := g.sh,
            flip := flip,
            angle := angle,
            camera := g.isCameraOn }
          .ok (some { g with animation := some (anims.set index.toNat { a1 with tick := a1.tick + 1 }) })
            [DrawCall.animDraw a1]
        else .unguardedAccess
      else .ok (some g) []

/-- `Stds_AddCollisionToGrid` has an empty body behind its bounds guard. -/
def Stds_AddCollisionToGrid (og : Option grid_t) (_col _row : Nat) : Option grid_t :=
  og

/-- Outcome of `Stds_FreeGrid`: the teardown summary (how many texture slots
were destroyed, whether a sprite sheet was destroyed), or the null-pointer
dereference that `grid->textures` performs when the argument is null — this
function is the one grid operation with no `Stds_AssertGrid` guard. -/
inductive FreeResult where
  | freed (textureCount : Nat) (hadSheet : Bool)
  | nullDeref
deriving DecidableEq, Repr

/-- `Stds_FreeGrid`. -/
def Stds_FreeGrid (og : Option grid_t) : FreeResult :=
  match og with
  | none => .nullDeref
  | some g =>
    .freed (match g.textures with | none => 0 | some _ => g.textureBuffer.toNat)
      g.spriteSheet.isSome

theorem isMouseOver_iff (mx my : Int) (rect : SDL_Rect) :
    Stds_IsMouseOverRect mx my rect = true ↔
      (rect.x ≤ mx ∧ mx ≤ rect.x + rect.w ∧ rect.y ≤ my ∧ my ≤ rect.y + rect.h) := by
  simp [Stds_IsMouseOverRect]

theorem isMouseOver_eq_false_iff (mx my : Int) (rect : SDL_Rect) :
    Stds_IsMouseOverRect mx my rect = false ↔
      ¬(rect.x ≤ mx ∧ mx ≤ rect.x + rect.w ∧ rect.y ≤ my ∧ my ≤ rect.y + rect.h) := by
  simp [Stds_IsMouseOverRect]

theorem pressed_clearButton (m : mouse_t) (code : Int) :
    pressed (clearButton m code) code = false := by
  simp [pressed, clearButton, List.mem_filter]

/-- C10: every public grid operation except teardown first null-checks the
grid (the check `Stds_AssertGrid` is exactly non-nullness) and, on a null
grid, performs no mutation and returns its sentinel — −1 for index-returning
operations, the (−1,−1) pair for hover/click, and a silent no-op with no
emitted draw calls for drawing operations; `Stds_FreeGrid` alone has no null
check and unconditionally dereferences its argument. -/
theorem C10_null_guards :
    (∀ og, Stds_AssertGrid og = og.isSome) ∧
    (∀ m p0, Stds_OnGridHover m none p0 = (none, { p0 with c := -1, r := -1 })) ∧
    (∀ m code p0, Stds_OnGridClicked m code none p0 = (none, m, { p0 with c := -1, r := -1 })) ∧
    (Stds_DrawLineGrid none = (none, [])) ∧
    (Stds_FillWholeGrid none = (none, [])) ∧
    (∀ latch tb, Stds_InitializeGridTextures latch none tb = (latch, none)) ∧
    (∀ env path, Stds_AddGridTexture env none path = (none, -1)) ∧
    (∀ col row index flip angle, Stds_PutGridTexture none col row index flip angle = (none, [])) ∧
    (∀ env path cols rows, Stds_AddSpriteSheetToGrid env none path cols rows = none) ∧
    (∀ c r, Stds_SelectSpriteForGrid none c r = none) ∧
    (∀ col row flip angle, Stds_DrawSelectedSpriteOnGrid none col row flip angle = (none, [])) ∧
    (∀ a, Stds_AddAnimationToGrid none (some a) = (none, -1)) ∧
    (∀ col row index flip angle,
      Stds_RenderAnimationToGrid none col row index flip angle = .ok none []) ∧
    (∀ col row, Stds_AddCollisionToGrid none col row = none) ∧
    (Stds_FreeGrid none = FreeResult.nullDeref) := by
  refine ⟨fun og => ?_, fun _ _ => rfl, fun _ _ _ => rfl, rfl, rfl, fun _ _ => rfl,
    fun _ _ => rfl, fun _ _ _ _ _ => rfl, fun _ _ _ _ => rfl, fun _ _ => rfl,
    fun _ _ _ _ => rfl, fun _ => rfl, fun _ _ _ _ _ => rfl, fun _ _ => rfl, rfl⟩
  cases og <;> simp [Stds_AssertGrid]

/-- C4: the texture-capacity initialization latch is process-wide: the first
call with a non-null grid allocates `textureBuffer` slots, records the
capacity, and flips the hidden latch; once the latch is set, every later
call — on this grid or any other instance — leaves the grid (and the latch)
unchanged. -/
theorem C4_initialize_once_latch :
    (∀ (g : grid_t) (tb : Int),
      Stds_InitializeGridTextures false (some g) tb =
        (true, some { g with textures := some (List.replicate tb.toNat none),
                             textureBuffer := tb })) ∧
    (∀ (og : Option grid_t) (tb : Int),
      Stds_InitializeGridTextures true og tb = (true, og)) := by
  constructor
  · intro g tb
    rfl
  · intro og tb
    cases og <;> rfl

/-- C3: with the grid non-null, `Stds_AddGridTexture` recomputes its slot
index locally from −1, so whenever `textureBuffer > 0` it stores the loaded
texture at slot 0 and returns 0 — regardless of any earlier additions, i.e.
for every grid state — and when the capacity is 0 it stores nothing and
returns the −1 sentinel. -/
theorem C3_add_texture_always_slot_zero (env : String → Int × Int) (g : grid_t)
    (path : String) :
    (0 < g.textureBuffer →
      Stds_AddGridTexture env (some g) path =
        (some { g with textures :=
            g.textures.map (fun arr => arr.set 0 (some (Stds_LoadTexture env path))) }, 0)) ∧
    (g.textureBuffer = 0 →
      Stds_AddGridTexture env (some g) path = (some g, -1)) := by
  constructor
  · intro h
    simp only [Stds_AddGridTexture]
    rw [if_pos (by omega)]
    norm_num
  · intro h
    simp only [Stds_AddGridTexture]
    rw [if_neg (by omega)]

theorem C3_witness :
    (0 < (2 : Int) ∧
      Stds_AddGridTexture (fun _ => (64, 64))
          (some { Stds_CreateGrid 0 0 32 32 4 3 ⟨0,0,0,0⟩ ⟨0,0,0,0⟩ with
                  textures := some [none, none], textureBuffer := 2 }) "tex.png" =
        (some { Stds_CreateGrid 0 0 32 32 4 3 ⟨0,0,0,0⟩ ⟨0,0,0,0⟩ with
                textures := some [some ⟨"tex.png", 64, 64⟩, none], textureBuffer := 2 }, 0)) ∧
    ((0 : Int) = 0 ∧
      Stds_AddGridTexture (fun _ => (64, 64))
          (some (Stds_CreateGrid 0 0 32 32 4 3 ⟨0,0,0,0⟩ ⟨0,0,0,0⟩)) "tex.png" =
        (some (Stds_CreateGrid 0 0 32 32 4 3 ⟨0,0,0,0⟩ ⟨0,0,0,0⟩), -1)) := by
  refine ⟨⟨by decide, ?_⟩, ⟨rfl, ?_⟩⟩
  · exact (C3_add_texture_always_slot_zero (fun _ => (64, 64)) _ "tex.png").1 (by decide)
  · exact (C3_add_texture_always_slot_zero (fun _ => (64, 64)) _ "tex.png").2 rfl

/-- C6: `Stds_SelectSpriteForGrid` with an in-range tile sets the clip origin
to (column × clip width, row × clip height); with the column or row outside
the sheet's declared tile counts it is a no-op leaving the whole grid — in
particular the clip origin — unchanged. -/
theorem C6_select_sprite_tile (g : grid_t) (sheetCol sheetRow : Nat) :
    (sheetCol < g.spriteSheetCols → sheetRow < g.spriteSheetRows →
      Stds_SelectSpriteForGrid (some g) sheetCol sheetRow =
        some { g with clip := { g.clip with
          x := (sheetCol : Int) * g.clip.w,
          y := (sheetRow : Int) * g.clip.h } }) ∧
    (g.spriteSheetCols ≤ sheetCol ∨ g.spriteSheetRows ≤ sheetRow →
      Stds_SelectSpriteForGrid (some g) sheetCol sheetRow = some g) := by
  constructor
  · intro h1 h2
    simp only [Stds_SelectSpriteForGrid]
    rw [if_pos ⟨h1, h2⟩]
  · intro h
    simp only [Stds_SelectSpriteForGrid]
    rw [if_neg (by omega)]

theorem C6_witness :
    ((1 : Nat) < 4 ∧ (0 : Nat) < 2 ∧
      Stds_SelectSpriteForGrid
          (some { Stds_CreateGrid 0 0 32 32 4 3 ⟨0,0,0,0⟩ ⟨0,0,0,0⟩ with
                  clip := ⟨0, 0, 16, 8⟩, spriteSheetCols := 4, spriteSheetRows := 2 }) 1 0 =
        some { Stds_CreateGrid 0 0 32 32 4 3 ⟨0,0,0,0⟩ ⟨0,0,0,0⟩ with
               clip := ⟨16, 0, 16, 8⟩, spriteSheetCols := 4, spriteSheetRows := 2 }) ∧
    ((4 : Nat) ≤ 4 ∧
      Stds_SelectSpriteForGrid
          (some { Stds_CreateGrid 0 0 32 32 4 3 ⟨0,0,0,0⟩ ⟨0,0,0,0⟩ with
                  clip := ⟨0, 0, 16, 8⟩, spriteSheetCols := 4, spriteSheetRows := 2 }) 4 1 =
        some { Stds_CreateGrid 0 0 32 32 4 3 ⟨0,0,0,0⟩ ⟨0,0,0,0⟩ with
               clip := ⟨0, 0, 16, 8⟩, spriteSheetCols := 4, spriteSheetRows := 2 }) := by
  refine ⟨⟨by decide, by decide, ?_⟩, ⟨by decide, ?_⟩⟩
  · exact ((C6_select_sprite_tile
      { Stds_CreateGrid 0 0 32 32 4 3 ⟨0,0,0,0⟩ ⟨0,0,0,0⟩ with
        clip := ⟨0, 0, 16, 8⟩, spriteSheetCols := 4, spriteSheetRows := 2 } 1 0).1
      (by decide) (by decide)).trans (by decide)
  · exact (C6_select_sprite_tile
      { Stds_CreateGrid 0 0 32 32 4 3 ⟨0,0,0,0⟩ ⟨0,0,0,0⟩ with
        clip := ⟨0, 0, 16, 8⟩, spriteSheetCols := 4, spriteSheetRows := 2 } 4 1).2
      (Or.inl (by decide))

/-- C9: `Stds_RenderAnimationToGrid` guards only the grid pointer, the
animation vector pointer and the cell coordinates; the animation index is
never compared with the vector's size, so a call that passes those guards
with an out-of-range index performs an unguarded fetch-and-dereference
instead of a guarded no-op — in contrast to `Stds_PutGridTexture`, whose
out-of-range texture index is a silent no-op. -/
theorem C9_unguarded_animation_index :
    (∀ col row index flip angle,
      Stds_RenderAnimationToGrid none col row index flip angle = .ok none []) ∧
    (∀ (g : grid_t) col row index flip angle, g.animation = none →
      Stds_RenderAnimationToGrid (some g) col row index flip angle = .ok (some g) []) ∧
    (∀ (g : grid_t) col row index flip angle, g.cols ≤ col ∨ g.rows ≤ row →
      Stds_RenderAnimationToGrid (some g) col row index flip angle = .ok (some g) []) ∧
    (∀ (g : grid_t) (l : List animation_t) col row index flip angle,
      g.animation = some l → col < g.cols → row < g.rows →
      (index < 0 ∨ (l.length : Int) ≤ index) →
      Stds_RenderAnimationToGrid (some g) col row index flip angle =
        RenderOutcome.unguardedAccess) ∧
    (∀ (g : grid_t) col row index flip angle, index ≤ -1 ∨ g.textureBuffer ≤ index →
      Stds_PutGridTexture (some g) col row index flip angle = (some g, [])) := by
  refine ⟨fun _ _ _ _ _ => rfl, ?_, ?_, ?_, ?_⟩
  · intro g col row index flip angle h
    simp only [Stds_RenderAnimationToGrid, h]
  · intro g col row index flip angle h
    cases hv : g.animation with
    | none => simp only [Stds_RenderAnimationToGrid, hv]
    | some l =>
      simp only [Stds_RenderAnimationToGrid, hv]
      rw [if_neg (by omega)]
  · intro g l col row index flip angle hv h1 h2 h3
    simp only [Stds_RenderAnimationToGrid, hv]
    rw [if_pos ⟨h1, h2⟩, dif_neg (by omega)]
  · intro g col row index flip angle h
    simp only [Stds_PutGridTexture]
    rw [if_neg (by omega)]

theorem C9_witness :
    (Stds_RenderAnimationToGrid
        (some (Stds_CreateGrid 0 0 32 32 4 3 ⟨0,0,0,0⟩ ⟨0,0,0,0⟩)) 1 1 0 0 0 =
      RenderOutcome.unguardedAccess) ∧
    (Stds_PutGridTexture
        (some (Stds_CreateGrid 0 0 32 32 4 3 ⟨0,0,0,0⟩ ⟨0,0,0,0⟩)) 1 1 0 0 0 =
      (some (Stds_CreateGrid 0 0 32 32 4 3 ⟨0,0,0,0⟩ ⟨0,0,0,0⟩), [])) := by
  constructor
  · exact C9_unguarded_animation_index.2.2.2.1
      (Stds_CreateGrid 0 0 32 32 4 3 ⟨0,0,0,0⟩ ⟨0,0,0,0⟩) [] 1 1 0 0 0
      rfl (by decide) (by decide) (by decide)
  · exact C9_unguarded_animation_index.2.2.2.2
      (Stds_CreateGrid 0 0 32 32 4 3 ⟨0,0,0,0⟩ ⟨0,0,0,0⟩) 1 1 0 0 0 (Or.inr (by decide))

/-- C5: refuted on the code.  `Stds_AddSpriteSheetToGrid`'s latch is a fresh
local (`bool once_call = false;`) rather than persistent state, so a second
call on the same grid is not a no-op: it reloads the sheet and overwrites the
sprite-sheet handle, the clip tile size, and the stored sheet column/row
counts.  Here the first call attaches a 64×64 sheet as 2×2 tiles and the
second call demonstrably replaces it with a 128×32 sheet as 4×1 tiles. -/
theorem C5_second_call_overwrites :
    (Stds_AddSpriteSheetToGrid
        (fun s => if s = "a.png" then ((64 : Int), (64 : Int)) else (128, 32))
        (some (Stds_CreateGrid 0 0 32 32 4 3 ⟨0,0,0,0⟩ ⟨0,0,0,0⟩)) "a.png" 2 2 =
      some { Stds_CreateGrid 0 0 32 32 4 3 ⟨0,0,0,0⟩ ⟨0,0,0,0⟩ with
             spriteSheet := some ⟨"a.png", 64, 64⟩, clip := ⟨0, 0, 32, 32⟩,
             spriteSheetCols := 2, spriteSheetRows := 2 }) ∧
    (Stds_AddSpriteSheetToGrid
        (fun s => if s = "a.png" then ((64 : Int), (64 : Int)) else (128, 32))
        (some { Stds_CreateGrid 0 0 32 32 4 3 ⟨0,0,0,0⟩ ⟨0,0,0,0⟩ with
                spriteSheet := some ⟨"a.png", 64, 64⟩, clip := ⟨0, 0, 32, 32⟩,
                spriteSheetCols := 2, spriteSheetRows := 2 }) "b.png" 4 1 =
      some { Stds_CreateGrid 0 0 32 32 4 3 ⟨0,0,0,0⟩ ⟨0,0,0,0⟩ with
             spriteSheet := some ⟨"b.png", 128, 32⟩, clip := ⟨0, 0, 32, 32⟩,
             spriteSheetCols := 4, spriteSheetRows := 1 }) ∧
    some { Stds_CreateGrid 0 0 32 32 4 3 ⟨0,0,0,0⟩ ⟨0,0,0,0⟩ with
           spriteSheet := some ⟨"b.png", 128, 32⟩, clip := ⟨0, 0, 32, 32⟩,
           spriteSheetCols := 4, spriteSheetRows := 1 } ≠
      some { Stds_CreateGrid 0 0 32 32 4 3 ⟨0,0,0,0⟩ ⟨0,0,0,0⟩ with
             spriteSheet := some ⟨"a.png", 64, 64⟩, clip := ⟨0, 0, 32, 32⟩,
             spriteSheetCols := 2, spriteSheetRows := 2 } := by
  refine ⟨by decide, by decide, by decide⟩

theorem drawHorizLines_eq (n : Nat) : ∀ g : grid_t,
    drawHorizLines g n =
      ({ g with y := g.y + (n : Int) * g.sh },
        (List.range n).map (fun (k : Nat) =>
          DrawCall.line g.x (g.y + (k : Int) * g.sh)
            (g.x + g.sw * (g.cols : Int)) (g.y + (k : Int) * g.sh) g.lineColor)) := by
  induction n with
  | zero =>
    intro g
    simp [drawHorizLines]
  | succ n ih =>
    intro g
    have h1 : drawHorizLines g (n + 1) =
        ((drawHorizLines { g with y := g.y + g.sh } n).1,
          DrawCall.line g.x g.y (g.x + g.sw * (g.cols : Int)) g.y g.lineColor ::
            (drawHorizLines { g with y := g.y + g.sh } n).2) := rfl
    rw [h1, ih]
    dsimp only
    rw [List.range_succ_eq_map, List.map_cons, List.map_map]
    congr 1
    · have hy : g.y + g.sh + (n : Int) * g.sh = g.y + ((n + 1 : Nat) : Int) * g.sh := by
        push_cast
        ring
      rw [hy]
    · congr 1
      · norm_num
      · apply List.map_congr_left
        intro k _
        simp only [Function.comp_apply]
        have hk : g.y + ((k + 1 : Nat) : Int) * g.sh = g.y + g.sh + (k : Int) * g.sh := by
          push_cast
          ring
        rw [hk]

theorem drawVertLines_eq (n : Nat) : ∀ g : grid_t,
    drawVertLines g n =
      ({ g with x := g.x + (n : Int) * g.sw },
        (List.range n).map (fun (k : Nat) =>
          DrawCall.line (g.x + (k : Int) * g.sw) g.y
            (g.x + (k : Int) * g.sw) (g.y + g.sh * (g.rows : Int)) g.lineColor)) := by
  induction n with
  | zero =>
    intro g
    simp [drawVertLines]
  | succ n ih =>
    intro g
    have h1 : drawVertLines g (n + 1) =
        ((drawVertLines { g with x := g.x + g.sw } n).1,
          DrawCall.line g.x g.y g.x (g.y + g.sh * (g.rows : Int)) g.lineColor ::
            (drawVertLines { g with x := g.x + g.sw } n).2) := rfl
    rw [h1, ih]
    dsimp only
    rw [List.range_succ_eq_map, List.map_cons, List.map_map]
    congr 1
    · have hx : g.x + g.sw + (n : Int) * g.sw = g.x + ((n + 1 : Nat) : Int) * g.sw := by
        push_cast
        ring
      rw [hx]
    · congr 1
      · norm_num
      · apply List.map_congr_left
        intro k _
        simp only [Function.comp_apply]
        have hk : g.x + ((k + 1 : Nat) : Int) * g.sw = g.x + g.sw + (k : Int) * g.sw := by
          push_cast
          ring
        rw [hk]

/-- Closed form of `Stds_DrawLineGrid` on a non-null grid: the cursor ends
reset at the start position, and the trace is `rows` horizontal lines, then
`cols` vertical lines, then the closing bottom horizontal and right vertical
edges, all placed relative to the immutable start position. -/
theorem Stds_DrawLineGrid_eq (g : grid_t) :
    Stds_DrawLineGrid (some g) =
      (some { g with x := g.sx, y := g.sy },
        ((List.range g.rows).map (fun (k : Nat) =>
          DrawCall.line g.sx (g.sy + (k : Int) * g.sh)
            (g.sx + g.sw * (g.cols : Int)) (g.sy + (k : Int) * g.sh) g.lineColor)) ++
        ((List.range g.cols).map (fun (k : Nat) =>
          DrawCall.line (g.sx + (k : Int) * g.sw) g.sy
            (g.sx + (k : Int) * g.sw) (g.sy + g.sh * (g.rows : Int)) g.lineColor)) ++
        [DrawCall.line g.sx (g.sy + g.sh * (g.rows : Int))
           (g.sx + g.sw * (g.cols : Int)) (g.sy + g.sh * (g.rows : Int)) g.lineColor,
         DrawCall.line (g.sx + g.sw * (g.cols : Int)) g.sy
           (g.sx + g.sw * (g.cols : Int)) (g.sy + g.sh * (g.rows : Int)) g.lineColor]) := by
  simp only [Stds_DrawLineGrid]
  rw [drawHorizLines_eq]
  dsimp only
  rw [drawVertLines_eq]

/-- C7: both `Stds_DrawLineGrid` and `Stds_FillWholeGrid` reset the cursor
origin to the immutable start position before drawing, so two consecutive
calls with no intervening mutation emit identical draw-call sequences —
leftover cursor state from the first pass cannot change the second. -/
theorem C7_draw_passes_idempotent (og : Option grid_t) :
    (Stds_DrawLineGrid (Stds_DrawLineGrid og).1).2 = (Stds_DrawLineGrid og).2 ∧
    (Stds_FillWholeGrid (Stds_FillWholeGrid og).1).2 = (Stds_FillWholeGrid og).2 := by
  constructor
  · cases og with
    | none => rfl
    | some g =>
      rw [Stds_DrawLineGrid_eq g]
      dsimp only
      rw [Stds_DrawLineGrid_eq]
  · cases og with
    | none => rfl
    | some g => rfl

/-- A recorded draw call that is a horizontal line segment. -/
def DrawCall.isHorizontalLine : DrawCall → Bool
  | .line _ y0 _ y1 _ => decide (y0 = y1)
  | _ => false

/-- A recorded draw call that is a vertical line segment. -/
def DrawCall.isVerticalLine : DrawCall → Bool
  | .line x0 _ x1 _ _ => decide (x0 = x1)
  | _ => false

theorem filter_map_range_true {α : Type} (p : α → Bool) (f : Nat → α) (n : Nat)
    (h : ∀ k, p (f k) = true) :
    ((List.range n).map f).filter p = (List.range n).map f := by
  induction n with
  | zero => rfl
  | succ n ih =>
    rw [List.range_succ, List.map_append, List.filter_append, ih]
    simp [List.filter_cons, h]

theorem filter_map_range_false {α : Type} (p : α → Bool) (f : Nat → α) (n : Nat)
    (h : ∀ k, p (f k) = false) :
    ((List.range n).map f).filter p = [] := by
  induction n with
  | zero => rfl
  | succ n ih =>
    rw [List.range_succ, List.map_append, List.filter_append, ih]
    simp [List.filter_cons, h]

/-- C8: on a non-null grid with positive cell size and positive column/row
counts, `Stds_DrawLineGrid` emits exactly `rows + 1` horizontal segments (the
segment at `y = sy + k·cellH` for each `k = 0..rows`, spanning `cols·cellW`)
and exactly `cols + 1` vertical segments (at `x = sx + k·cellW` for each
`k = 0..cols`, spanning `rows·cellH`), all in the grid's line color. -/
theorem C8_line_grid_segments (g : grid_t) (hsw : 0 < g.sw) (hsh : 0 < g.sh)
    (hcols : 0 < g.cols) (hrows : 0 < g.rows) :
    ((Stds_DrawLineGrid (some g)).2.filter DrawCall.isHorizontalLine =
      (List.range (g.rows + 1)).map (fun (k : Nat) =>
        DrawCall.line g.sx (g.sy + (k : Int) * g.sh)
          (g.sx + g.sw * (g.cols : Int)) (g.sy + (k : Int) * g.sh) g.lineColor)) ∧
    ((Stds_DrawLineGrid (some g)).2.filter DrawCall.isVerticalLine =
      (List.range (g.cols + 1)).map (fun (k : Nat) =>
        DrawCall.line (g.sx + (k : Int) * g.sw) g.sy
          (g.sx + (k : Int) * g.sw) (g.sy + g.sh * (g.rows : Int)) g.lineColor)) ∧
    ((Stds_DrawLineGrid (some g)).2.filter DrawCall.isHorizontalLine).length = g.rows + 1 ∧
    ((Stds_DrawLineGrid (some g)).2.filter DrawCall.isVerticalLine).length = g.cols + 1 := by
  have hswc : (0 : Int) < g.sw * (g.cols : Int) := by
    apply mul_pos hsw
    exact_mod_cast hcols
  have hshr : (0 : Int) < g.sh * (g.rows : Int) := by
    apply mul_pos hsh
    exact_mod_cast hrows
  have hbH : DrawCall.isHorizontalLine
      (DrawCall.line g.sx (g.sy + g.sh * (g.rows : Int))
        (g.sx + g.sw * (g.cols : Int)) (g.sy + g.sh * (g.rows : Int)) g.lineColor) = true := by
    simp [DrawCall.isHorizontalLine]
  have hbV : DrawCall.isVerticalLine
      (DrawCall.line g.sx (g.sy + g.sh * (g.rows : Int))
        (g.sx + g.sw * (g.cols : Int)) (g.sy + g.sh * (g.rows : Int)) g.lineColor) = false := by
    simp only [DrawCall.isVerticalLine, decide_eq_false_iff_not]
    intro h
    linarith
  have hrH : DrawCall.isHorizontalLine
      (DrawCall.line (g.sx + g.sw * (g.cols : Int)) g.sy
        (g.sx + g.sw * (g.cols : Int)) (g.sy + g.sh * (g.rows : Int)) g.lineColor) = false := by
    simp only [DrawCall.isHorizontalLine, decide_eq_false_iff_not]
    intro h
    linarith
  have hrV : DrawCall.isVerticalLine
      (DrawCall.line (g.sx + g.sw * (g.cols : Int)) g.sy
        (g.sx + g.sw * (g.cols : Int)) (g.sy + g.sh * (g.rows : Int)) g.lineColor) = true := by
    simp [DrawCall.isVerticalLine]
  have hAH : ∀ k : Nat, DrawCall.isHorizontalLine
      (DrawCall.line g.sx (g.sy + (k : Int) * g.sh)
        (g.sx + g.sw * (g.cols : Int)) (g.sy + (k : Int) * g.sh) g.lineColor) = true := by
    intro k
    simp [DrawCall.isHorizontalLine]
  have hAV : ∀ k : Nat, DrawCall.isVerticalLine
      (DrawCall.line g.sx (g.sy + (k : Int) * g.sh)
        (g.sx + g.sw * (g.cols : Int)) (g.sy + (k : Int) * g.sh) g.lineColor) = false := by
    intro k
    simp only [DrawCall.isVerticalLine, decide_eq_false_iff_not]
    intro h
    linarith
  have hBH : ∀ k : Nat, DrawCall.isHorizontalLine
      (DrawCall.line (g.sx + (k : Int) * g.sw) g.sy
        (g.sx + (k : Int) * g.sw) (g.sy + g.sh * (g.rows : Int)) g.lineColor) = false := by
    intro k
    simp only [DrawCall.isHorizontalLine, decide_eq_false_iff_not]
    intro h
    linarith
  have hBV : ∀ k : Nat, DrawCall.isVerticalLine
      (DrawCall.line (g.sx + (k : Int) * g.sw) g.sy
        (g.sx + (k : Int) * g.sw) (g.sy + g.sh * (g.rows : Int)) g.lineColor) = true := by
    intro k
    simp [DrawCall.isVerticalLine]
  have hH : (Stds_DrawLineGrid (some g)).2.filter DrawCall.isHorizontalLine =
      (List.range (g.rows + 1)).map (fun (k : Nat) =>
        DrawCall.line g.sx (g.sy + (k : Int) * g.sh)
          (g.sx + g.sw * (g.cols : Int)) (g.sy + (k : Int) * g.sh) g.lineColor) := by
    rw [Stds_DrawLineGrid_eq]
    dsimp only
    rw [List.filter_append, List.filter_append,
      filter_map_range_true _ _ _ hAH, filter_map_range_false _ _ _ hBH,
      List.range_succ, List.map_append]
    simp only [List.filter_cons, hbH, hrH, List.filter_nil, if_true, if_false,
      List.append_nil, Bool.false_eq_true, if_neg]
    congr 2
    ring_nf
  have hV : (Stds_DrawLineGrid (some g)).2.filter DrawCall.isVerticalLine =
      (List.range (g.cols + 1)).map (fun (k : Nat) =>
        DrawCall.line (g.sx + (k : Int) * g.sw) g.sy
          (g.sx + (k : Int) * g.sw) (g.sy + g.sh * (g.rows : Int)) g.lineColor) := by
    rw [Stds_DrawLineGrid_eq]
    dsimp only
    rw [List.filter_append, List.filter_append,
      filter_map_range_false _ _ _ hAV, filter_map_range_true _ _ _ hBV,
      List.range_succ, List.map_append]
    simp only [List.filter_cons, hbV, hrV, List.filter_nil, if_true, if_false,
      List.nil_append, Bool.false_eq_true, if_neg]
    congr 2
    ring_nf
  refine ⟨hH, hV, ?_, ?_⟩
  · rw [hH]
    simp
  · rw [hV]
    simp

theorem C8_witness :
    (0 : Int) < 32 ∧ (0 : Nat) < 4 ∧ (0 : Nat) < 3 ∧
    ((Stds_DrawLineGrid
        (some (Stds_CreateGrid 0 0 32 32 4 3 ⟨1,2,3,4⟩ ⟨0,0,0,0⟩))).2.filter
          DrawCall.isHorizontalLine).length = 4 ∧
    ((Stds_DrawLineGrid
        (some (Stds_CreateGrid 0 0 32 32 4 3 ⟨1,2,3,4⟩ ⟨0,0,0,0⟩))).2.filter
          DrawCall.isVerticalLine).length = 5 := by
  refine ⟨by decide, by decide, by decide, ?_, ?_⟩
  · exact (C8_line_grid_segments (Stds_CreateGrid 0 0 32 32 4 3 ⟨1,2,3,4⟩ ⟨0,0,0,0⟩)
      (by decide) (by decide) (by decide) (by decide)).2.2.1
  · exact (C8_line_grid_segments (Stds_CreateGrid 0 0 32 32 4 3 ⟨1,2,3,4⟩ ⟨0,0,0,0⟩)
      (by decide) (by decide) (by decide) (by decide)).2.2.2

theorem hoverScanCols_succ (mx my sw : Int) (n cIdx : Nat) (rect : SDL_Rect) (p : grid_pair_t) :
    hoverScanCols mx my sw (n + 1) cIdx rect p =
      if Stds_IsMouseOverRect mx my rect = true then
        (some (⟨(cIdx : Int), p.r, rect.x, p.y⟩ : grid_pair_t), rect,
          (⟨(cIdx : Int), p.r, rect.x, p.y⟩ : grid_pair_t))
      else
        hoverScanCols mx my sw n (cIdx + 1) ⟨rect.x + sw, rect.y, rect.w, rect.h⟩
          ⟨(cIdx : Int), p.r, rect.x, p.y⟩ := rfl

theorem hoverScanCols_no_hit (mx my sw : Int) (n : Nat) :
    ∀ (cIdx : Nat) (rect : SDL_Rect) (p : grid_pair_t),
    (∀ j : Nat, j < n →
      Stds_IsMouseOverRect mx my ⟨rect.x + (j : Int) * sw, rect.y, rect.w, rect.h⟩ = false) →
    ∃ q, hoverScanCols mx my sw n cIdx rect p =
      (none, ⟨rect.x + (n : Int) * sw, rect.y, rect.w, rect.h⟩, q) := by
  induction n with
  | zero =>
    intro cIdx rect p _
    refine ⟨p, ?_⟩
    simp [hoverScanCols]
  | succ n ih =>
    intro cIdx rect p h
    have h0 : Stds_IsMouseOverRect mx my rect = false := by
      have h00 := h 0 (Nat.succ_pos n)
      simpa using h00
    rw [hoverScanCols_succ, if_neg (by simp [h0])]
    have hshift : ∀ j : Nat, j < n →
        Stds_IsMouseOverRect mx my
          ⟨(⟨rect.x + sw, rect.y, rect.w, rect.h⟩ : SDL_Rect).x + (j : Int) * sw,
            rect.y, rect.w, rect.h⟩ = false := by
      intro j hj
      have hth := h (j + 1) (by omega)
      have hx : rect.x + ((j + 1 : Nat) : Int) * sw = rect.x + sw + (j : Int) * sw := by
        push_cast
        ring
      rw [hx] at hth
      exact hth
    obtain ⟨q, hq⟩ := ih (cIdx + 1) ⟨rect.x + sw, rect.y, rect.w, rect.h⟩
      ⟨(cIdx : Int), p.r, rect.x, p.y⟩ hshift
    refine ⟨q, ?_⟩
    rw [hq]
    have hx2 : rect.x + sw + (n : Int) * sw = rect.x + ((n + 1 : Nat) : Int) * sw := by
      push_cast
      ring
    dsimp only
    rw [hx2]

theorem hoverScanCols_hit (mx my sw : Int) (j : Nat) :
    ∀ (n cIdx : Nat) (rect : SDL_Rect) (p : grid_pair_t),
    j < n →
    Stds_IsMouseOverRect mx my ⟨rect.x + (j : Int) * sw, rect.y, rect.w, rect.h⟩ = true →
    (∀ i : Nat, i < j →
      Stds_IsMouseOverRect mx my ⟨rect.x + (i : Int) * sw, rect.y, rect.w, rect.h⟩ = false) →
    hoverScanCols mx my sw n cIdx rect p =
      (some ⟨((cIdx + j : Nat) : Int), p.r, rect.x + (j : Int) * sw, p.y⟩,
        ⟨rect.x + (j : Int) * sw, rect.y, rect.w, rect.h⟩,
        ⟨((cIdx + j : Nat) : Int), p.r, rect.x + (j : Int) * sw, p.y⟩) := by
  induction j with
  | zero =>
    intro n cIdx rect p hn hhit _
    obtain ⟨n', rfl⟩ : ∃ n', n = n' + 1 := ⟨n - 1, by omega⟩
    have h0 : Stds_IsMouseOverRect mx my rect = true := by simpa using hhit
    rw [hoverScanCols_succ, if_pos h0]
    simp
  | succ j ihj =>
    intro n cIdx rect p hn hhit hbefore
    obtain ⟨n', rfl⟩ : ∃ n', n = n' + 1 := ⟨n - 1, by omega⟩
    have h0 : Stds_IsMouseOverRect mx my rect = false := by
      have h00 := hbefore 0 (Nat.succ_pos j)
      simpa using h00
    rw [hoverScanCols_succ, if_neg (by simp [h0])]
    have hhit' : Stds_IsMouseOverRect mx my
        ⟨(⟨rect.x + sw, rect.y, rect.w, rect.h⟩ : SDL_Rect).x + (j : Int) * sw,
          rect.y, rect.w, rect.h⟩ = true := by
      have hx : rect.x + ((j + 1 : Nat) : Int) * sw = rect.x + sw + (j : Int) * sw := by
        push_cast
        ring
      rw [hx] at hhit
      exact hhit
    have hbefore' : ∀ i : Nat, i < j →
        Stds_IsMouseOverRect mx my
          ⟨(⟨rect.x + sw, rect.y, rect.w, rect.h⟩ : SDL_Rect).x + (i : Int) * sw,
            rect.y, rect.w, rect.h⟩ = false := by
      intro i hi
      have hth := hbefore (i + 1) (by omega)
      have hx : rect.x + ((i + 1 : Nat) : Int) * sw = rect.x + sw + (i : Int) * sw := by
        push_cast
        ring
      rw [hx] at hth
      exact hth
    have ih' := ihj n' (cIdx + 1) ⟨rect.x + sw, rect.y, rect.w, rect.h⟩
      ⟨(cIdx : Int), p.r, rect.x, p.y⟩ (by omega) hhit' hbefore'
    dsimp only at ih'
    rw [show cIdx + 1 + j = cIdx + (j + 1) from by omega] at ih'
    rw [show rect.x + sw + (j : Int) * sw = rect.x + ((j + 1 : Nat) : Int) * sw from by
      push_cast; ring] at ih'
    exact ih'

theorem hoverScanRows_succ (mx my sw sh sx : Int) (cols : Nat) (n rIdx : Nat)
    (rect : SDL_Rect) (p : grid_pair_t) :
    hoverScanRows mx my sw sh sx cols (n + 1) rIdx rect p =
      match hoverScanCols mx my sw cols 0 rect ⟨p.c, (rIdx : Int), p.x, rect.y⟩ with
      | (some hit, _, _) => (some hit, hit)
      | (none, rect1, p2) =>
        hoverScanRows mx my sw sh sx cols n (rIdx + 1)
          ⟨sx, rect1.y + sh, rect1.w, rect1.h⟩ p2 := rfl

theorem hoverScanRows_no_hit (mx my sw sh sx : Int) (cols : Nat) (m : Nat) :
    ∀ (rIdx : Nat) (yCur w h : Int) (p : grid_pair_t),
    (∀ i : Nat, i < m → ∀ j : Nat, j < cols →
      Stds_IsMouseOverRect mx my ⟨sx + (j : Int) * sw, yCur + (i : Int) * sh, w, h⟩ = false) →
    ∃ q, hoverScanRows mx my sw sh sx cols m rIdx ⟨sx, yCur, w, h⟩ p = (none, q) := by
  induction m with
  | zero =>
    intro rIdx yCur w h p _
    exact ⟨p, rfl⟩
  | succ m ih =>
    intro rIdx yCur w h p hall
    have hrow : ∀ j : Nat, j < cols →
        Stds_IsMouseOverRect mx my
          ⟨(⟨sx, yCur, w, h⟩ : SDL_Rect).x + (j : Int) * sw, yCur, w, h⟩ = false := by
      intro j hj
      have hth := hall 0 (Nat.succ_pos m) j hj
      simpa using hth
    obtain ⟨q1, hq1⟩ := hoverScanCols_no_hit mx my sw cols 0 ⟨sx, yCur, w, h⟩
      ⟨p.c, (rIdx : Int), p.x, yCur⟩ hrow
    rw [hoverScanRows_succ]
    dsimp only at hq1 ⊢
    rw [hq1]
    dsimp only
    have hshift : ∀ i : Nat, i < m → ∀ j : Nat, j < cols →
        Stds_IsMouseOverRect mx my
          ⟨sx + (j : Int) * sw, (yCur + sh) + (i : Int) * sh, w, h⟩ = false := by
      intro i hi j hj
      have hth := hall (i + 1) (by omega) j hj
      have hy : yCur + ((i + 1 : Nat) : Int) * sh = yCur + sh + (i : Int) * sh := by
        push_cast
        ring
      rw [hy] at hth
      exact hth
    exact ih (rIdx + 1) (yCur + sh) w h q1 hshift

theorem hoverScanRows_hit (mx my sw sh sx : Int) (cols : Nat) (i : Nat) :
    ∀ (m rIdx : Nat) (yCur w h : Int) (p : grid_pair_t) (j : Nat),
    i < m → j < cols →
    (∀ i' : Nat, i' < i → ∀ j' : Nat, j' < cols →
      Stds_IsMouseOverRect mx my ⟨sx + (j' : Int) * sw, yCur + (i' : Int) * sh, w, h⟩ = false) →
    (∀ j' : Nat, j' < j →
      Stds_IsMouseOverRect mx my ⟨sx + (j' : Int) * sw, yCur + (i : Int) * sh, w, h⟩ = false) →
    Stds_IsMouseOverRect mx my ⟨sx + (j : Int) * sw, yCur + (i : Int) * sh, w, h⟩ = true →
    hoverScanRows mx my sw sh sx cols m rIdx ⟨sx, yCur, w, h⟩ p =
      (some ⟨(j : Int), ((rIdx + i : Nat) : Int), sx + (j : Int) * sw, yCur + (i : Int) * sh⟩,
        ⟨(j : Int), ((rIdx + i : Nat) : Int), sx + (j : Int) * sw, yCur + (i : Int) * sh⟩) := by
  induction i with
  | zero =>
    intro m rIdx yCur w h p j hm hj _ hcolsb hhit
    obtain ⟨m', rfl⟩ : ∃ m', m = m' + 1 := ⟨m - 1, by omega⟩
    have hhit0 : Stds_IsMouseOverRect mx my
        ⟨(⟨sx, yCur, w, h⟩ : SDL_Rect).x + (j : Int) * sw, yCur, w, h⟩ = true := by
      simpa using hhit
    have hbefore0 : ∀ i' : Nat, i' < j →
        Stds_IsMouseOverRect mx my
          ⟨(⟨sx, yCur, w, h⟩ : SDL_Rect).x + (i' : Int) * sw, yCur, w, h⟩ = false := by
      intro i' hi'
      have hth := hcolsb i' hi'
      simpa using hth
    have hc := hoverScanCols_hit mx my sw j cols 0 ⟨sx, yCur, w, h⟩
      ⟨p.c, ((rIdx : Nat) : Int), p.x, yCur⟩ hj hhit0 hbefore0
    rw [hoverScanRows_succ]
    dsimp only at hc ⊢
    rw [hc]
    dsimp only
    simp
  | succ i ihi =>
    intro m rIdx yCur w h p j hm hj hrows hcolsb hhit
    obtain ⟨m', rfl⟩ : ∃ m', m = m' + 1 := ⟨m - 1, by omega⟩
    have hrow0 : ∀ j' : Nat, j' < cols →
        Stds_IsMouseOverRect mx my
          ⟨(⟨sx, yCur, w, h⟩ : SDL_Rect).x + (j' : Int) * sw, yCur, w, h⟩ = false := by
      intro j' hj'
      have hth := hrows 0 (Nat.succ_pos i) j' hj'
      simpa using hth
    obtain ⟨q1, hq1⟩ := hoverScanCols_no_hit mx my sw cols 0 ⟨sx, yCur, w, h⟩
      ⟨p.c, ((rIdx : Nat) : Int), p.x, yCur⟩ hrow0
    rw [hoverScanRows_succ]
    dsimp only at hq1 ⊢
    rw [hq1]
    dsimp only
    have hrows' : ∀ i' : Nat, i' < i → ∀ j' : Nat, j' < cols →
        Stds_IsMouseOverRect mx my
          ⟨sx + (j' : Int) * sw, (yCur + sh) + (i' : Int) * sh, w, h⟩ = false := by
      intro i' hi' j' hj'
      have hth := hrows (i' + 1) (by omega) j' hj'
      rw [show yCur + ((i' + 1 : Nat) : Int) * sh = yCur + sh + (i' : Int) * sh from by
        push_cast; ring] at hth
      exact hth
    have hcolsb' : ∀ j' : Nat, j' < j →
        Stds_IsMouseOverRect mx my
          ⟨sx + (j' : Int) * sw, (yCur + sh) + (i : Int) * sh, w, h⟩ = false := by
      intro j' hj'
      have hth := hcolsb j' hj'
      rw [show yCur + ((i + 1 : Nat) : Int) * sh = yCur + sh + (i : Int) * sh from by
        push_cast; ring] at hth
      exact hth
    have hhit' : Stds_IsMouseOverRect mx my
        ⟨sx + (j : Int) * sw, (yCur + sh) + (i : Int) * sh, w, h⟩ = true := by
      have hth := hhit
      rw [show yCur + ((i + 1 : Nat) : Int) * sh = yCur + sh + (i : Int) * sh from by
        push_cast; ring] at hth
      exact hth
    have ih' := ihi m' (rIdx + 1) (yCur + sh) w h q1 j (by omega) hj hrows' hcolsb' hhit'
    rw [ih']
    rw [show rIdx + 1 + i = rIdx + (i + 1) from by omega]
    rw [show (yCur + sh) + (i : Int) * sh = yCur + ((i + 1 : Nat) : Int) * sh from by
      push_cast; ring]

theorem clickScanCols_succ (mo : mouse_t) (code sw : Int) (n cIdx : Nat)
    (rect : SDL_Rect) (p : grid_pair_t) :
    clickScanCols mo code sw (n + 1) cIdx rect p =
      if (Stds_IsMouseOverRect mo.x mo.y rect && pressed mo code) = true then
        (some (⟨(cIdx : Int), p.r, rect.x, p.y⟩ : grid_pair_t), clearButton mo code, rect,
          (⟨(cIdx : Int), p.r, rect.x, p.y⟩ : grid_pair_t))
      else
        clickScanCols mo code sw n (cIdx + 1) ⟨rect.x + sw, rect.y, rect.w, rect.h⟩
          ⟨(cIdx : Int), p.r, rect.x, p.y⟩ := rfl

theorem clickScanCols_no_hit (mo : mouse_t) (code sw : Int) (n : Nat) :
    ∀ (cIdx : Nat) (rect : SDL_Rect) (p : grid_pair_t),
    (∀ j : Nat, j < n →
      (Stds_IsMouseOverRect mo.x mo.y ⟨rect.x + (j : Int) * sw, rect.y, rect.w, rect.h⟩ &&
        pressed mo code) = false) →
    ∃ q, clickScanCols mo code sw n cIdx rect p =
      (none, mo, ⟨rect.x + (n : Int) * sw, rect.y, rect.w, rect.h⟩, q) := by
  induction n with
  | zero =>
    intro cIdx rect p _
    refine ⟨p, ?_⟩
    simp [clickScanCols]
  | succ n ih =>
    intro cIdx rect p h
    have h0 : (Stds_IsMouseOverRect mo.x mo.y rect && pressed mo code) = false := by
      have h00 := h 0 (Nat.succ_pos n)
      simpa using h00
    rw [clickScanCols_succ, if_neg (by simp [h0])]
    have hshift : ∀ j : Nat, j < n →
        (Stds_IsMouseOverRect mo.x mo.y
          ⟨(⟨rect.x + sw, rect.y, rect.w, rect.h⟩ : SDL_Rect).x + (j : Int) * sw,
            rect.y, rect.w, rect.h⟩ && pressed mo code) = false := by
      intro j hj
      have hth := h (j + 1) (by omega)
      rw [show rect.x + ((j + 1 : Nat) : Int) * sw = rect.x + sw + (j : Int) * sw from by
        push_cast; ring] at hth
      exact hth
    obtain ⟨q, hq⟩ := ih (cIdx + 1) ⟨rect.x + sw, rect.y, rect.w, rect.h⟩
      ⟨(cIdx : Int), p.r, rect.x, p.y⟩ hshift
    refine ⟨q, ?_⟩
    rw [hq]
    dsimp only
    rw [show rect.x + sw + (n : Int) * sw = rect.x + ((n + 1 : Nat) : Int) * sw from by
      push_cast; ring]

theorem clickScanCols_hit (mo : mouse_t) (code sw : Int) (j : Nat) :
    ∀ (n cIdx : Nat) (rect : SDL_Rect) (p : grid_pair_t),
    j < n →
    (Stds_IsMouseOverRect mo.x mo.y ⟨rect.x + (j : Int) * sw, rect.y, rect.w, rect.h⟩ &&
      pressed mo code) = true →
    (∀ i : Nat, i < j →
      (Stds_IsMouseOverRect mo.x mo.y ⟨rect.x + (i : Int) * sw, rect.y, rect.w, rect.h⟩ &&
        pressed mo code) = false) →
    clickScanCols mo code sw n cIdx rect p =
      (some ⟨((cIdx + j : Nat) : Int), p.r, rect.x + (j : Int) * sw, p.y⟩,
        clearButton mo code,
        ⟨rect.x + (j : Int) * sw, rect.y, rect.w, rect.h⟩,
        ⟨((cIdx + j : Nat) : Int), p.r, rect.x + (j : Int) * sw, p.y⟩) := by
  induction j with
  | zero =>
    intro n cIdx rect p hn hhit _
    obtain ⟨n', rfl⟩ : ∃ n', n = n' + 1 := ⟨n - 1, by omega⟩
    have h0 : (Stds_IsMouseOverRect mo.x mo.y rect && pressed mo code) = true := by
      simpa using hhit
    rw [clickScanCols_succ, if_pos h0]
    simp
  | succ j ihj =>
    intro n cIdx rect p hn hhit hbefore
    obtain ⟨n', rfl⟩ : ∃ n', n = n' + 1 := ⟨n - 1, by omega⟩
    have h0 : (Stds_IsMouseOverRect mo.x mo.y rect && pressed mo code) = false := by
      have h00 := hbefore 0 (Nat.succ_pos j)
      simpa using h00
    rw [clickScanCols_succ, if_neg (by simp [h0])]
    have hhit' : (Stds_IsMouseOverRect mo.x mo.y
        ⟨(⟨rect.x + sw, rect.y, rect.w, rect.h⟩ : SDL_Rect).x + (j : Int) * sw,
          rect.y, rect.w, rect.h⟩ && pressed mo code) = true := by
      rw [show rect.x + ((j + 1 : Nat) : Int) * sw = rect.x + sw + (j : Int) * sw from by
        push_cast; ring] at hhit
      exact hhit
    have hbefore' : ∀ i : Nat, i < j →
        (Stds_IsMouseOverRect mo.x mo.y
          ⟨(⟨rect.x + sw, rect.y, rect.w, rect.h⟩ : SDL_Rect).x + (i : Int) * sw,
            rect.y, rect.w, rect.h⟩ && pressed mo code) = false := by
      intro i hi
      have hth := hbefore (i + 1) (by omega)
      rw [show rect.x + ((i + 1 : Nat) : Int) * sw = rect.x + sw + (i : Int) * sw from by
        push_cast; ring] at hth
      exact hth
    have ih' := ihj n' (cIdx + 1) ⟨rect.x + sw, rect.y, rect.w, rect.h⟩
      ⟨(cIdx : Int), p.r, rect.x, p.y⟩ (by omega) hhit' hbefore'
    dsimp only at ih'
    rw [show cIdx + 1 + j = cIdx + (j + 1) from by omega] at ih'
    rw [show rect.x + sw + (j : Int) * sw = rect.x + ((j + 1 : Nat) : Int) * sw from by
      push_cast; ring] at ih'
    exact ih'

theorem clickScanRows_succ (mo : mouse_t) (code sw sh sx : Int) (cols : Nat) (n rIdx : Nat)
    (rect : SDL_Rect) (p : grid_pair_t) :
    clickScanRows mo code sw sh sx cols (n + 1) rIdx rect p =
      match clickScanCols mo code sw cols 0 rect ⟨p.c, (rIdx : Int), p.x, rect.y⟩ with
      | (some hit, mo1, _, _) => (some hit, mo1, hit)
      | (none, mo1, rect1, p2) =>
        clickScanRows mo1 code sw sh sx cols n (rIdx + 1)
          ⟨sx, rect1.y + sh, rect1.w, rect1.h⟩ p2 := rfl

theorem clickScanRows_no_hit (mo : mouse_t) (code sw sh sx : Int) (cols : Nat) (m : Nat) :
    ∀ (rIdx : Nat) (yCur w h : Int) (p : grid_pair_t),
    (∀ i : Nat, i < m → ∀ j : Nat, j < cols →
      (Stds_IsMouseOverRect mo.x mo.y ⟨sx + (j : Int) * sw, yCur + (i : Int) * sh, w, h⟩ &&
        pressed mo code) = false) →
    ∃ q, clickScanRows mo code sw sh sx cols m rIdx ⟨sx, yCur, w, h⟩ p = (none, mo, q) := by
  induction m with
  | zero =>
    intro rIdx yCur w h p _
    exact ⟨p, rfl⟩
  | succ m ih =>
    intro rIdx yCur w h p hall
    have hrow : ∀ j : Nat, j < cols →
        (Stds_IsMouseOverRect mo.x mo.y
          ⟨(⟨sx, yCur, w, h⟩ : SDL_Rect).x + (j : Int) * sw, yCur, w, h⟩ &&
          pressed mo code) = false := by
      intro j hj
      have hth := hall 0 (Nat.succ_pos m) j hj
      simpa using hth
    obtain ⟨q1, hq1⟩ := clickScanCols_no_hit mo code sw cols 0 ⟨sx, yCur, w, h⟩
      ⟨p.c, ((rIdx : Nat) : Int), p.x, yCur⟩ hrow
    rw [clickScanRows_succ]
    dsimp only at hq1 ⊢
    rw [hq1]
    dsimp only
    have hshift : ∀ i : Nat, i < m → ∀ j : Nat, j < cols →
        (Stds_IsMouseOverRect mo.x mo.y
          ⟨sx + (j : Int) * sw, (yCur + sh) + (i : Int) * sh, w, h⟩ &&
          pressed mo code) = false := by
      intro i hi j hj
      have hth := hall (i + 1) (by omega) j hj
      rw [show yCur + ((i + 1 : Nat) : Int) * sh = yCur + sh + (i : Int) * sh from by
        push_cast; ring] at hth
      exact hth
    exact ih (rIdx + 1) (yCur + sh) w h q1 hshift

theorem clickScanRows_hit (mo : mouse_t) (code sw sh sx : Int) (cols : Nat) (i : Nat) :
    ∀ (m rIdx : Nat) (yCur w h : Int) (p : grid_pair_t) (j : Nat),
    i < m → j < cols →
    (∀ i' : Nat, i' < i → ∀ j' : Nat, j' < cols →
      (Stds_IsMouseOverRect mo.x mo.y ⟨sx + (j' : Int) * sw, yCur + (i' : Int) * sh, w, h⟩ &&
        pressed mo code) = false) →
    (∀ j' : Nat, j' < j →
      (Stds_IsMouseOverRect mo.x mo.y ⟨sx + (j' : Int) * sw, yCur + (i : Int) * sh, w, h⟩ &&
        pressed mo code) = false) →
    (Stds_IsMouseOverRect mo.x mo.y ⟨sx + (j : Int) * sw, yCur + (i : Int) * sh, w, h⟩ &&
      pressed mo code) = true →
    clickScanRows mo code sw sh sx cols m rIdx ⟨sx, yCur, w, h⟩ p =
      (some ⟨(j : Int), ((rIdx + i : Nat) : Int), sx + (j : Int) * sw, yCur + (i : Int) * sh⟩,
        clearButton mo code,
        ⟨(j : Int), ((rIdx + i : Nat) : Int), sx + (j : Int) * sw, yCur + (i : Int) * sh⟩) := by
  induction i with
  | zero =>
    intro m rIdx yCur w h p j hm hj _ hcolsb hhit
    obtain ⟨m', rfl⟩ : ∃ m', m = m' + 1 := ⟨m - 1, by omega⟩
    have hhit0 : (Stds_IsMouseOverRect mo.x mo.y
        ⟨(⟨sx, yCur, w, h⟩ : SDL_Rect).x + (j : Int) * sw, yCur, w, h⟩ &&
        pressed mo code) = true := by
      simpa using hhit
    have hbefore0 : ∀ i' : Nat, i' < j →
        (Stds_IsMouseOverRect mo.x mo.y
          ⟨(⟨sx, yCur, w, h⟩ : SDL_Rect).x + (i' : Int) * sw, yCur, w, h⟩ &&
          pressed mo code) = false := by
      intro i' hi'
      have hth := hcolsb i' hi'
      simpa using hth
    have hc := clickScanCols_hit mo code sw j cols 0 ⟨sx, yCur, w, h⟩
      ⟨p.c, ((rIdx : Nat) : Int), p.x, yCur⟩ hj hhit0 hbefore0
    rw [clickScanRows_succ]
    dsimp only at hc ⊢
    rw [hc]
    dsimp only
    simp
  | succ i ihi =>
    intro m rIdx yCur w h p j hm hj hrows hcolsb hhit
    obtain ⟨m', rfl⟩ : ∃ m', m = m' + 1 := ⟨m - 1, by omega⟩
    have hrow0 : ∀ j' : Nat, j' < cols →
        (Stds_IsMouseOverRect mo.x mo.y
          ⟨(⟨sx, yCur, w, h⟩ : SDL_Rect).x + (j' : Int) * sw, yCur, w, h⟩ &&
          pressed mo code) = false := by
      intro j' hj'
      have hth := hrows 0 (Nat.succ_pos i) j' hj'
      simpa using hth
    obtain ⟨q1, hq1⟩ := clickScanCols_no_hit mo code sw cols 0 ⟨sx, yCur, w, h⟩
      ⟨p.c, ((rIdx : Nat) : Int), p.x, yCur⟩ hrow0
    rw [clickScanRows_succ]
    dsimp only at hq1 ⊢
    rw [hq1]
    dsimp only
    have hrows' : ∀ i' : Nat, i' < i → ∀ j' : Nat, j' < cols →
        (Stds_IsMouseOverRect mo.x mo.y
          ⟨sx + (j' : Int) * sw, (yCur + sh) + (i' : Int) * sh, w, h⟩ &&
          pressed mo code) = false := by
      intro i' hi' j' hj'
      have hth := hrows (i' + 1) (by omega) j' hj'
      rw [show yCur + ((i' + 1 : Nat) : Int) * sh = yCur + sh + (i' : Int) * sh from by
        push_cast; ring] at hth
      exact hth
    have hcolsb' : ∀ j' : Nat, j' < j →
        (Stds_IsMouseOverRect mo.x mo.y
          ⟨sx + (j' : Int) * sw, (yCur + sh) + (i : Int) * sh, w, h⟩ &&
          pressed mo code) = false := by
      intro j' hj'
      have hth := hcolsb j' hj'
      rw [show yCur + ((i + 1 : Nat) : Int) * sh = yCur + sh + (i : Int) * sh from by
        push_cast; ring] at hth
      exact hth
    have hhit' : (Stds_IsMouseOverRect mo.x mo.y
        ⟨sx + (j : Int) * sw, (yCur + sh) + (i : Int) * sh, w, h⟩ &&
        pressed mo code) = true := by
      have hth := hhit
      rw [show yCur + ((i + 1 : Nat) : Int) * sh = yCur + sh + (i : Int) * sh from by
        push_cast; ring] at hth
      exact hth
    have ih' := ihi m' (rIdx + 1) (yCur + sh) w h q1 j (by omega) hj hrows' hcolsb' hhit'
    rw [ih']
    rw [show rIdx + 1 + i = rIdx + (i + 1) from by omega]
    rw [show (yCur + sh) + (i : Int) * sh = yCur + ((i + 1 : Nat) : Int) * sh from by
      push_cast; ring]

theorem Stds_OnGridHover_some (m : mouse_t) (g : grid_t) (p0 : grid_pair_t) :
    Stds_OnGridHover m (some g) p0 =
      match hoverScanRows m.x m.y g.sw g.sh g.sx g.cols g.rows 0
          ⟨g.sx, g.sy, g.sw, g.sh⟩ p0 with
      | (some hit, _) => (some { g with x := g.sx, y := g.sy }, hit)
      | (none, pLast) =>
        (some { g with x := g.sx, y := g.sy }, ⟨-1, -1, pLast.x, pLast.y⟩) := rfl

theorem Stds_OnGridClicked_some (m : mouse_t) (code : Int) (g : grid_t) (p0 : grid_pair_t) :
    Stds_OnGridClicked m code (some g) p0 =
      match clickScanRows m code g.sw g.sh g.sx g.cols g.rows 0
          ⟨g.sx, g.sy, g.sw, g.sh⟩ p0 with
      | (some hit, m1, _) => (some { g with x := g.sx, y := g.sy }, m1, hit)
      | (none, m1, pLast) =>
        (some { g with x := g.sx, y := g.sy }, m1, ⟨-1, -1, pLast.x, pLast.y⟩) := rfl

/-- C1: the hover and click resolvers scan the cells row-major from the start
position; a pointer strictly inside cell `(c, r)`'s screen rect resolves to
`(c, r)` (for the click test, with the queried button pressed), and a pointer
outside every cell's screen rect resolves to the (−1, −1) sentinel. -/
theorem C1_hover_click_resolution (g : grid_t) (m : mouse_t) (p0 : grid_pair_t)
    (code : Int) (c r : Nat) :
    (0 < g.sw → 0 < g.sh → c < g.cols → r < g.rows →
      g.sx + (c : Int) * g.sw < m.x → m.x < g.sx + ((c : Int) + 1) * g.sw →
      g.sy + (r : Int) * g.sh < m.y → m.y < g.sy + ((r : Int) + 1) * g.sh →
      ((Stds_OnGridHover m (some g) p0).2.c = (c : Int) ∧
        (Stds_OnGridHover m (some g) p0).2.r = (r : Int)) ∧
      (pressed m code = true →
        (Stds_OnGridClicked m code (some g) p0).2.2.c = (c : Int) ∧
        (Stds_OnGridClicked m code (some g) p0).2.2.r = (r : Int))) ∧
    ((∀ c' : Nat, c' < g.cols → ∀ r' : Nat, r' < g.rows →
        Stds_IsMouseOverRect m.x m.y
          ⟨g.sx + (c' : Int) * g.sw, g.sy + (r' : Int) * g.sh, g.sw, g.sh⟩ = false) →
      ((Stds_OnGridHover m (some g) p0).2.c = -1 ∧
        (Stds_OnGridHover m (some g) p0).2.r = -1) ∧
      ((Stds_OnGridClicked m code (some g) p0).2.2.c = -1 ∧
        (Stds_OnGridClicked m code (some g) p0).2.2.r = -1)) := by
  constructor
  · intro hsw hsh hc hr h1 h2 h3 h4
    have hhit : Stds_IsMouseOverRect m.x m.y
        ⟨g.sx + (c : Int) * g.sw, g.sy + (r : Int) * g.sh, g.sw, g.sh⟩ = true := by
      rw [isMouseOver_iff]
      dsimp only
      have e1 : g.sx + ((c : Int) + 1) * g.sw = g.sx + (c : Int) * g.sw + g.sw := by ring
      have e2 : g.sy + ((r : Int) + 1) * g.sh = g.sy + (r : Int) * g.sh + g.sh := by ring
      exact ⟨le_of_lt h1, by linarith, le_of_lt h3, by linarith⟩
    have hcolsb : ∀ j' : Nat, j' < c →
        Stds_IsMouseOverRect m.x m.y
          ⟨g.sx + (j' : Int) * g.sw, g.sy + (r : Int) * g.sh, g.sw, g.sh⟩ = false := by
      intro j' hj'
      rw [isMouseOver_eq_false_iff]
      dsimp only
      rintro ⟨-, hb, -, -⟩
      have hj1 : ((j' : Int) + 1) ≤ (c : Int) := by exact_mod_cast hj'
      have hmul : ((j' : Int) + 1) * g.sw ≤ (c : Int) * g.sw :=
        mul_le_mul_of_nonneg_right hj1 (le_of_lt hsw)
      have e3 : ((j' : Int) + 1) * g.sw = (j' : Int) * g.sw + g.sw := by ring
      linarith
    have hrowsb : ∀ i' : Nat, i' < r → ∀ j' : Nat, j' < g.cols →
        Stds_IsMouseOverRect m.x m.y
          ⟨g.sx + (j' : Int) * g.sw, g.sy + (i' : Int) * g.sh, g.sw, g.sh⟩ = false := by
      intro i' hi' j' _
      rw [isMouseOver_eq_false_iff]
      dsimp only
      rintro ⟨-, -, -, hd⟩
      have hi1 : ((i' : Int) + 1) ≤ (r : Int) := by exact_mod_cast hi'
      have hmul : ((i' : Int) + 1) * g.sh ≤ (r : Int) * g.sh :=
        mul_le_mul_of_nonneg_right hi1 (le_of_lt hsh)
      have e3 : ((i' : Int) + 1) * g.sh = (i' : Int) * g.sh + g.sh := by ring
      linarith
    constructor
    · have hscan := hoverScanRows_hit m.x m.y g.sw g.sh g.sx g.cols r g.rows 0
        g.sy g.sw g.sh p0 c hr hc hrowsb hcolsb hhit
      rw [Stds_OnGridHover_some, hscan]
      dsimp only
      norm_num
    · intro hp
      have hhitc : (Stds_IsMouseOverRect m.x m.y
          ⟨g.sx + (c : Int) * g.sw, g.sy + (r : Int) * g.sh, g.sw, g.sh⟩ &&
          pressed m code) = true := by
        rw [hp, Bool.and_true]
        exact hhit
      have hcolsbc : ∀ j' : Nat, j' < c →
          (Stds_IsMouseOverRect m.x m.y
            ⟨g.sx + (j' : Int) * g.sw, g.sy + (r : Int) * g.sh, g.sw, g.sh⟩ &&
            pressed m code) = false := by
        intro j' hj'
        rw [hp, Bool.and_true]
        exact hcolsb j' hj'
      have hrowsbc : ∀ i' : Nat, i' < r → ∀ j' : Nat, j' < g.cols →
          (Stds_IsMouseOverRect m.x m.y
            ⟨g.sx + (j' : Int) * g.sw, g.sy + (i' : Int) * g.sh, g.sw, g.sh⟩ &&
            pressed m code) = false := by
        intro i' hi' j' hj'
        rw [hp, Bool.and_true]
        exact hrowsb i' hi' j' hj'
      have hscan := clickScanRows_hit m code g.sw g.sh g.sx g.cols r g.rows 0
        g.sy g.sw g.sh p0 c hr hc hrowsbc hcolsbc hhitc
      rw [Stds_OnGridClicked_some, hscan]
      dsimp only
      norm_num
  · intro houts
    constructor
    · have hall : ∀ i : Nat, i < g.rows → ∀ j : Nat, j < g.cols →
          Stds_IsMouseOverRect m.x m.y
            ⟨g.sx + (j : Int) * g.sw, g.sy + (i : Int) * g.sh, g.sw, g.sh⟩ = false :=
        fun i hi j hj => houts j hj i hi
      obtain ⟨q, hq⟩ := hoverScanRows_no_hit m.x m.y g.sw g.sh g.sx g.cols g.rows 0
        g.sy g.sw g.sh p0 hall
      rw [Stds_OnGridHover_some, hq]
      exact ⟨rfl, rfl⟩
    · have hall : ∀ i : Nat, i < g.rows → ∀ j : Nat, j < g.cols →
          (Stds_IsMouseOverRect m.x m.y
            ⟨g.sx + (j : Int) * g.sw, g.sy + (i : Int) * g.sh, g.sw, g.sh⟩ &&
            pressed m code) = false := by
        intro i hi j hj
        rw [houts j hj i hi]
        exact Bool.false_and _
      obtain ⟨q, hq⟩ := clickScanRows_no_hit m code g.sw g.sh g.sx g.cols g.rows 0
        g.sy g.sw g.sh p0 hall
      rw [Stds_OnGridClicked_some, hq]
      exact ⟨rfl, rfl⟩

theorem C1_witness :
    ((Stds_OnGridHover ⟨70, 40, [1]⟩
        (some (Stds_CreateGrid 0 0 32 32 4 3 ⟨0,0,0,0⟩ ⟨0,0,0,0⟩)) ⟨0, 0, 0, 0⟩).2.c = 2 ∧
      (Stds_OnGridHover ⟨70, 40, [1]⟩
        (some (Stds_CreateGrid 0 0 32 32 4 3 ⟨0,0,0,0⟩ ⟨0,0,0,0⟩)) ⟨0, 0, 0, 0⟩).2.r = 1) ∧
    ((Stds_OnGridClicked ⟨70, 40, [1]⟩ 1
        (some (Stds_CreateGrid 0 0 32 32 4 3 ⟨0,0,0,0⟩ ⟨0,0,0,0⟩)) ⟨0, 0, 0, 0⟩).2.2.c = 2 ∧
      (Stds_OnGridClicked ⟨70, 40, [1]⟩ 1
        (some (Stds_CreateGrid 0 0 32 32 4 3 ⟨0,0,0,0⟩ ⟨0,0,0,0⟩)) ⟨0, 0, 0, 0⟩).2.2.r = 1) ∧
    ((Stds_OnGridHover ⟨-5, -5, [1]⟩
        (some (Stds_CreateGrid 0 0 32 32 4 3 ⟨0,0,0,0⟩ ⟨0,0,0,0⟩)) ⟨0, 0, 0, 0⟩).2.c = -1 ∧
      (Stds_OnGridHover ⟨-5, -5, [1]⟩
        (some (Stds_CreateGrid 0 0 32 32 4 3 ⟨0,0,0,0⟩ ⟨0,0,0,0⟩)) ⟨0, 0, 0, 0⟩).2.r = -1) ∧
    ((Stds_OnGridClicked ⟨-5, -5, [1]⟩ 1
        (some (Stds_CreateGrid 0 0 32 32 4 3 ⟨0,0,0,0⟩ ⟨0,0,0,0⟩)) ⟨0, 0, 0, 0⟩).2.2.c = -1 ∧
      (Stds_OnGridClicked ⟨-5, -5, [1]⟩ 1
        (some (Stds_CreateGrid 0 0 32 32 4 3 ⟨0,0,0,0⟩ ⟨0,0,0,0⟩)) ⟨0, 0, 0, 0⟩).2.2.r = -1) := by
  have hin := (C1_hover_click_resolution (Stds_CreateGrid 0 0 32 32 4 3 ⟨0,0,0,0⟩ ⟨0,0,0,0⟩)
    ⟨70, 40, [1]⟩ ⟨0, 0, 0, 0⟩ 1 2 1).1 (by decide) (by decide) (by decide) (by decide)
    (by decide) (by decide) (by decide) (by decide)
  have hout := (C1_hover_click_resolution (Stds_CreateGrid 0 0 32 32 4 3 ⟨0,0,0,0⟩ ⟨0,0,0,0⟩)
    ⟨-5, -5, [1]⟩ ⟨0, 0, 0, 0⟩ 1 2 1).2 (by decide)
  exact ⟨hin.1, hin.2 (by decide), hout.1, hout.2⟩

theorem clickScanCols_cases (mo : mouse_t) (code sw : Int) (n : Nat) :
    ∀ (cIdx : Nat) (rect : SDL_Rect) (p : grid_pair_t),
    (∃ rect1 q, clickScanCols mo code sw n cIdx rect p = (none, mo, rect1, q)) ∨
    (∃ hit rect1, clickScanCols mo code sw n cIdx rect p =
        (some hit, clearButton mo code, rect1, hit) ∧ ∃ k : Nat, hit.c = (k : Int)) := by
  induction n with
  | zero =>
    intro cIdx rect p
    exact Or.inl ⟨rect, p, rfl⟩
  | succ n ih =>
    intro cIdx rect p
    rw [clickScanCols_succ]
    by_cases hcond : (Stds_IsMouseOverRect mo.x mo.y rect && pressed mo code) = true
    · rw [if_pos hcond]
      exact Or.inr ⟨⟨(cIdx : Int), p.r, rect.x, p.y⟩, rect, rfl, ⟨cIdx, rfl⟩⟩
    · rw [if_neg hcond]
      exact ih (cIdx + 1) ⟨rect.x + sw, rect.y, rect.w, rect.h⟩ ⟨(cIdx : Int), p.r, rect.x, p.y⟩

theorem clickScanRows_cases (mo : mouse_t) (code sw sh sx : Int) (cols : Nat) (m : Nat) :
    ∀ (rIdx : Nat) (rect : SDL_Rect) (p : grid_pair_t),
    (∃ q, clickScanRows mo code sw sh sx cols m rIdx rect p = (none, mo, q)) ∨
    (∃ hit, clickScanRows mo code sw sh sx cols m rIdx rect p =
        (some hit, clearButton mo code, hit) ∧ ∃ k : Nat, hit.c = (k : Int)) := by
  induction m with
  | zero =>
    intro rIdx rect p
    exact Or.inl ⟨p, rfl⟩
  | succ m ih =>
    intro rIdx rect p
    rw [clickScanRows_succ]
    rcases clickScanCols_cases mo code sw cols 0 rect ⟨p.c, (rIdx : Int), p.x, rect.y⟩ with
      ⟨rect1, q, hq⟩ | ⟨hit, rect1, hq, hk⟩
    · rw [hq]
      exact ih (rIdx + 1) ⟨sx, rect1.y + sh, rect1.w, rect1.h⟩ q
    · rw [hq]
      exact Or.inr ⟨hit, rfl, hk⟩

theorem clicked_sentinel_of_not_pressed (mo : mouse_t) (code : Int) (og : Option grid_t)
    (p1 : grid_pair_t) (h : pressed mo code = false) :
    (Stds_OnGridClicked mo code og p1).2.2.c = -1 ∧
    (Stds_OnGridClicked mo code og p1).2.2.r = -1 ∧
    (Stds_OnGridClicked mo code og p1).2.1 = mo := by
  cases og with
  | none => exact ⟨rfl, rfl, rfl⟩
  | some g =>
    have hall : ∀ i : Nat, i < g.rows → ∀ j : Nat, j < g.cols →
        (Stds_IsMouseOverRect mo.x mo.y
          ⟨g.sx + (j : Int) * g.sw, g.sy + (i : Int) * g.sh, g.sw, g.sh⟩ &&
          pressed mo code) = false := by
      intro i _ j _
      rw [h, Bool.and_false]
    obtain ⟨q, hq⟩ := clickScanRows_no_hit mo code g.sw g.sh g.sx g.cols g.rows 0
      g.sy g.sw g.sh p1 hall
    rw [Stds_OnGridClicked_some, hq]
    exact ⟨rfl, rfl, rfl⟩

/-- C2: when `Stds_OnGridClicked` reports a cell hit, it has consumed the
press: the queried button's pressed flag is cleared in the resulting mouse
state, so an immediately following `Stds_OnGridClicked` call — same grid,
same (unmoved) pointer, same button, or indeed any caller querying that
button — resolves to the (−1, −1) sentinel; a single press therefore
registers at most one click. -/
theorem C2_click_consumes_press (g : grid_t) (m : mouse_t) (p0 : grid_pair_t) (code : Int)
    (hhit : (Stds_OnGridClicked m code (some g) p0).2.2.c ≠ -1) :
    pressed (Stds_OnGridClicked m code (some g) p0).2.1 code = false ∧
    ∀ p1 : grid_pair_t,
      (Stds_OnGridClicked (Stds_OnGridClicked m code (some g) p0).2.1 code
        (Stds_OnGridClicked m code (some g) p0).1 p1).2.2.c = -1 ∧
      (Stds_OnGridClicked (Stds_OnGridClicked m code (some g) p0).2.1 code
        (Stds_OnGridClicked m code (some g) p0).1 p1).2.2.r = -1 := by
  rcases clickScanRows_cases m code g.sw g.sh g.sx g.cols g.rows 0
      ⟨g.sx, g.sy, g.sw, g.sh⟩ p0 with ⟨q, hq⟩ | ⟨hit, hq, k, hk⟩
  · exfalso
    apply hhit
    rw [Stds_OnGridClicked_some, hq]
  · have hm1 : (Stds_OnGridClicked m code (some g) p0).2.1 = clearButton m code := by
      rw [Stds_OnGridClicked_some, hq]
    have hpf : pressed (Stds_OnGridClicked m code (some g) p0).2.1 code = false := by
      rw [hm1]
      exact pressed_clearButton m code
    refine ⟨hpf, fun p1 => ?_⟩
    have hs := clicked_sentinel_of_not_pressed
      (Stds_OnGridClicked m code (some g) p0).2.1 code
      (Stds_OnGridClicked m code (some g) p0).1 p1 hpf
    exact ⟨hs.1, hs.2.1⟩

theorem C2_witness :
    ((Stds_OnGridClicked ⟨70, 40, [1]⟩ 1
        (some (Stds_CreateGrid 0 0 32 32 4 3 ⟨0,0,0,0⟩ ⟨0,0,0,0⟩)) ⟨0, 0, 0, 0⟩).2.2.c ≠ -1) ∧
    pressed (Stds_OnGridClicked ⟨70, 40, [1]⟩ 1
        (some (Stds_CreateGrid 0 0 32 32 4 3 ⟨0,0,0,0⟩ ⟨0,0,0,0⟩)) ⟨0, 0, 0, 0⟩).2.1 1 = false ∧
    (Stds_OnGridClicked
        (Stds_OnGridClicked ⟨70, 40, [1]⟩ 1
          (some (Stds_CreateGrid 0 0 32 32 4 3 ⟨0,0,0,0⟩ ⟨0,0,0,0⟩)) ⟨0, 0, 0, 0⟩).2.1 1
        (Stds_OnGridClicked ⟨70, 40, [1]⟩ 1
          (some (Stds_CreateGrid 0 0 32 32 4 3 ⟨0,0,0,0⟩ ⟨0,0,0,0⟩)) ⟨0, 0, 0, 0⟩).1
        ⟨0, 0, 0, 0⟩).2.2.c = -1 := by
  have h := C2_click_consumes_press (Stds_CreateGrid 0 0 32 32 4 3 ⟨0,0,0,0⟩ ⟨0,0,0,0⟩)
    ⟨70, 40, [1]⟩ ⟨0, 0, 0, 0⟩ 1 (by decide)
  exact ⟨by decide, h.1, (h.2 ⟨0, 0, 0, 0⟩).1⟩
